import Mathlib

/-!
Verification development for the magic-engine rules engine.

Shallow embedding of the orchestration core of the Python source
(`src/magic_engine/...`): the mana pool and cost ledger, the turn
sequencer, the two-player priority manager, the zone bookkeeping, the
resolution stack, the object registry and the win/loss check.  Each
definition is translated from the named source function; theorems settle
the specification claims against these definitions.
-/

set_option autoImplicit false

namespace MagicEngine

/-! ### Mana types and cost dictionaries

`ManaType` from `enums.py`: members WHITE, BLUE, BLACK, RED, GREEN,
COLORLESS.  Note that the enum has **no** GENERIC member. -/

inductive ManaType where
  | white
  | blue
  | black
  | red
  | green
  | colorless
  deriving DecidableEq, Repr, BEq

/-- A key of a cost dictionary (`cost_dict : Dict[ManaType | str, int]` in
`costs/mana_cost.py`): either a `ManaType` member or the string literal
`"generic"` that `ConcreteManaPool.can_spend`/`spend` look up. -/
inductive CostKey where
  | mana (t : ManaType)
  | genericStr
  deriving DecidableEq, Repr, BEq

/-- A cost dictionary: insertion-ordered key/amount pairs (Python `dict`
iteration follows insertion order). -/
abbrev CostDict := List (CostKey × Int)

/-- Python `cost_dict.get(k, 0)`: amount stored under key `k`, defaulting
to `0`. -/
def CostDict.getAmount : CostDict → CostKey → Int
  | [], _ => 0
  | (k', a) :: rest, k => if k' = k then a else CostDict.getAmount rest k

/-- Whether the dictionary holds an entry under the string key `"generic"`. -/
def CostDict.hasGeneric (cost : CostDict) : Bool :=
  cost.any (fun e => e.1 = CostKey.genericStr)

/-- Sum of the amounts the dictionary requires of the specific mana type
`t` (the non-`"generic"` entries with key `t`). -/
def CostDict.sumSpecific : CostDict → ManaType → Int
  | [], _ => 0
  | (CostKey.mana t', a) :: rest, t =>
      (if t' = t then a else 0) + CostDict.sumSpecific rest t
  | (CostKey.genericStr, _) :: rest, t => CostDict.sumSpecific rest t

/-- `SimpleManaCost.__init__` (`costs/mana_cost.py`).  Each positive
component is stored keyed by the corresponding `ManaType` member, in the
constructor's order.  For a positive generic component the code evaluates
`ManaType.GENERIC`, an attribute that `enums.py` does not define, so the
constructor raises `AttributeError` instead of building the dictionary. -/
def SimpleManaCost.init (generic white blue black red green colorless : Int) :
    Except String CostDict :=
  if 0 < generic then
    Except.error "AttributeError: ManaType has no attribute GENERIC"
  else
    let d : CostDict := []
    let d := if 0 < white then d ++ [(CostKey.mana ManaType.white, white)] else d
    let d := if 0 < blue then d ++ [(CostKey.mana ManaType.blue, blue)] else d
    let d := if 0 < black then d ++ [(CostKey.mana ManaType.black, black)] else d
    let d := if 0 < red then d ++ [(CostKey.mana ManaType.red, red)] else d
    let d := if 0 < green then d ++ [(CostKey.mana ManaType.green, green)] else d
    let d := if 0 < colorless then d ++ [(CostKey.mana ManaType.colorless, colorless)] else d
    Except.ok d

/-! ### The mana pool

`ConcreteManaPool` (`player/concrete_mana_pool.py`): `_pool` is a
`defaultdict(int)` keyed by `ManaType`; a missing key reads as `0`, so the
pool is a total map from the six mana types to integers. -/

structure ManaPool where
  white : Int
  blue : Int
  black : Int
  red : Int
  green : Int
  colorless : Int
  deriving DecidableEq, Repr

/-- The all-zero pool (a fresh `ConcreteManaPool`). -/
def ManaPool.empty : ManaPool := ⟨0, 0, 0, 0, 0, 0⟩

/-- `pool.get(t, 0)` / `get_amount`. -/
def ManaPool.get (p : ManaPool) : ManaType → Int
  | ManaType.white => p.white
  | ManaType.blue => p.blue
  | ManaType.black => p.black
  | ManaType.red => p.red
  | ManaType.green => p.green
  | ManaType.colorless => p.colorless

/-- `pool[t] = v`. -/
def ManaPool.set (p : ManaPool) (t : ManaType) (v : Int) : ManaPool :=
  match t with
  | ManaType.white => { p with white := v }
  | ManaType.blue => { p with blue := v }
  | ManaType.black => { p with black := v }
  | ManaType.red => { p with red := v }
  | ManaType.green => { p with green := v }
  | ManaType.colorless => { p with colorless := v }

/-- `sum(pool.values())`. -/
def ManaPool.total (p : ManaPool) : Int :=
  p.white + p.blue + p.black + p.red + p.green + p.colorless

/-- `ConcreteManaPool.add`: a non-positive amount returns immediately;
otherwise `_pool[mana_type] += amount` (restrictions are only warned
about and ignored). -/
def ManaPool.add (p : ManaPool) (t : ManaType) (amount : Int) : ManaPool :=
  if amount ≤ 0 then p
  else p.set t (p.get t + amount)

/-- The specific-cost loop of `ConcreteManaPool.can_spend`: entries with
the string key `"generic"` are skipped; for each specific entry the pool
must hold at least the amount (`return False` otherwise, modelled as
`none`) and the amount is deducted from the simulated copy. -/
def ManaPool.spendSpecifics (temp : ManaPool) : CostDict → Option ManaPool
  | [] => some temp
  | (CostKey.genericStr, _) :: rest => ManaPool.spendSpecifics temp rest
  | (CostKey.mana t, amount) :: rest =>
      if temp.get t < amount then none
      else ManaPool.spendSpecifics (temp.set t (temp.get t - amount)) rest

/-- `ConcreteManaPool.can_spend`: simulate the specific costs on a copy of
the pool, then require the remaining total to cover the amount stored
under the string key `"generic"` (which defaults to `0`). -/
def ManaPool.can_spend (p : ManaPool) (cost : CostDict) : Bool :=
  let genericCost := cost.getAmount CostKey.genericStr
  match ManaPool.spendSpecifics p cost with
  | none => false
  | some temp => decide (genericCost ≤ temp.total)

/-- The method form of `can_spend`: the Python method reads `self._pool`
only to copy it into `temp_pool` (`self._pool.copy()`) and never assigns
or mutates `self._pool`, so the pool component of the state is returned
unchanged. -/
def ManaPool.can_spendM (p : ManaPool) (cost : CostDict) : Bool × ManaPool :=
  (ManaPool.can_spend p cost, p)

/-- The specific-cost loop of `ConcreteManaPool.spend` (step 1): like the
`can_spend` loop but without the sufficiency check (`can_spend` has
already vouched for it). -/
def ManaPool.paySpecifics (temp : ManaPool) : CostDict → ManaPool
  | [] => temp
  | (CostKey.genericStr, _) :: rest => ManaPool.paySpecifics temp rest
  | (CostKey.mana t, amount) :: rest =>
      ManaPool.paySpecifics (temp.set t (temp.get t - amount)) rest

/-- `mana_types_for_generic` of `ConcreteManaPool.spend`: colorless first,
then W, U, B, R, G. -/
def manaTypesForGeneric : List ManaType :=
  [ManaType.colorless, ManaType.white, ManaType.blue, ManaType.black,
   ManaType.red, ManaType.green]

/-- The generic-payment loop of `ConcreteManaPool.spend` (step 2): spend
`min(generic_to_pay, available)` of each type in preference order,
breaking as soon as nothing is left to pay.  Returns the updated pool and
the remaining generic amount. -/
def ManaPool.payGeneric (temp : ManaPool) (genericToPay : Int) :
    List ManaType → ManaPool × Int
  | [] => (temp, genericToPay)
  | t :: rest =>
      let available := temp.get t
      let spendAmount := min genericToPay available
      let next :=
        if 0 < spendAmount then
          (temp.set t (available - spendAmount), genericToPay - spendAmount)
        else (temp, genericToPay)
      if next.2 = 0 then (next.1, 0)
      else ManaPool.payGeneric next.1 next.2 rest

/-- `ConcreteManaPool.spend`: re-check `can_spend` (failure leaves the pool
untouched); pay the specific costs and then the generic amount on the
`temp_pool` copy; if generic remains unpaid return failure *without*
committing, otherwise commit the copy (`self._pool = temp_pool`). -/
def ManaPool.spend (p : ManaPool) (cost : CostDict) : ManaPool × Bool :=
  if ¬ ManaPool.can_spend p cost then (p, false)
  else
    let temp := ManaPool.paySpecifics p cost
    let res := ManaPool.payGeneric temp (cost.getAmount CostKey.genericStr)
      manaTypesForGeneric
    if 0 < res.2 then (p, false)
    else (res.1, true)

/-! ### The turn sequencer

`SimpleTurnManager` (`managers/concrete_turn_manager.py`).  Only the
sequencing state is embedded (active player index, turn number, phase and
step bookkeeping); the game side effects of `advance` (untap, draw,
cleanup, priority assignment) write to other components and never feed
back into these fields. -/

inductive PhaseType where
  | beginning
  | precombatMain
  | combat
  | postcombatMain
  | ending
  deriving DecidableEq, Repr

inductive StepType where
  | untap
  | upkeep
  | draw
  | beginCombat
  | declareAttackers
  | declareBlockers
  | combatDamage
  | endOfCombat
  | main
  | endStep
  | cleanup
  deriving DecidableEq, Repr

/-- `PHASE_ORDER`. -/
def PHASE_ORDER : List PhaseType :=
  [PhaseType.beginning, PhaseType.precombatMain, PhaseType.combat,
   PhaseType.postcombatMain, PhaseType.ending]

/-- `STEP_ORDER`. -/
def STEP_ORDER : PhaseType → List StepType
  | PhaseType.beginning => [StepType.untap, StepType.upkeep, StepType.draw]
  | PhaseType.precombatMain => [StepType.main]
  | PhaseType.combat =>
      [StepType.beginCombat, StepType.declareAttackers, StepType.declareBlockers,
       StepType.combatDamage, StepType.endOfCombat]
  | PhaseType.postcombatMain => [StepType.main]
  | PhaseType.ending => [StepType.endStep, StepType.cleanup]

/-- Python list indexing `l[i]`: a negative index counts from the end
(`l[-1]` is the last element).  Indices out of range raise in Python; the
embedding returns `none` there (advance only ever indexes in range, where
the two semantics agree). -/
def pyGet {α : Type} (l : List α) (i : Int) : Option α :=
  if 0 ≤ i then l.get? i.toNat
  else if (-i).toNat ≤ l.length then l.get? (l.length - (-i).toNat)
  else none

structure SimpleTurnManager where
  numPlayers : Nat
  activePlayerIndex : Nat
  turnNumber : Nat
  currentPhase : PhaseType
  currentStep : StepType
  phaseIndex : Nat
  stepIndex : Int
  deriving DecidableEq, Repr

/-- `SimpleTurnManager.__init__`: before the first turn, phase Beginning,
step Untap, `_step_index = -1`. -/
def SimpleTurnManager.init (numPlayers startingPlayerIndex : Nat) : SimpleTurnManager :=
  { numPlayers := numPlayers
    activePlayerIndex := startingPlayerIndex
    turnNumber := 0
    currentPhase := PhaseType.beginning
    currentStep := StepType.untap
    phaseIndex := 0
    stepIndex := -1 }

/-- `SimpleTurnManager.start_turn`: rotate the active player (only after
turn 0), increment the turn counter, and reset the phase/step indices to
the beginning (`PHASE_ORDER.index(BEGINNING) = 0`, `_step_index = -1`,
commented "Will advance to Untap next"). -/
def SimpleTurnManager.start_turn (s : SimpleTurnManager) : SimpleTurnManager :=
  let s :=
    if 0 < s.turnNumber then
      { s with activePlayerIndex := (s.activePlayerIndex + 1) % s.numPlayers }
    else s
  { s with turnNumber := s.turnNumber + 1, phaseIndex := 0, stepIndex := -1 }

/-- `SimpleTurnManager.advance`: step to the next step; on exhausting the
phase's steps move to the next phase; on wrapping into Beginning call
`start_turn` and then set `current_step = STEP_ORDER[current_phase][_step_index]`
— with `_step_index` just reset to `-1` by `start_turn`, so Python's
negative indexing selects the *last* Beginning step.  The `getD` fallback
mirrors nothing in the source: on every reachable state the index is in
range, so the fallback value is never used. -/
def SimpleTurnManager.advance (s : SimpleTurnManager) : SimpleTurnManager :=
  let s := { s with stepIndex := s.stepIndex + 1 }
  if ((STEP_ORDER s.currentPhase).length : Int) ≤ s.stepIndex then
    let s := { s with phaseIndex := (s.phaseIndex + 1) % PHASE_ORDER.length }
    let s := { s with currentPhase := (PHASE_ORDER.get? s.phaseIndex).getD s.currentPhase }
    let s := { s with stepIndex := 0 }
    if s.currentPhase = PhaseType.beginning then
      let s := s.start_turn
      { s with currentStep := (pyGet (STEP_ORDER s.currentPhase) s.stepIndex).getD s.currentStep }
    else
      { s with currentStep := (pyGet (STEP_ORDER s.currentPhase) s.stepIndex).getD s.currentStep }
  else
    { s with currentStep := (pyGet (STEP_ORDER s.currentPhase) s.stepIndex).getD s.currentStep }

/-- The sequencer state after `ConcreteGame.start_game` for two players:
`start_turn` explicitly, then `advance` to Untap, then `advance` to
Upkeep. -/
def setupTurnState : SimpleTurnManager :=
  ((SimpleTurnManager.init 2 0).start_turn).advance.advance

/-! ### The two-player priority manager

`TwoPlayerPriorityManager` (`managers/concrete_priority_manager.py`).
The two players are `0` and `1` (the constructor's `players` list). -/

structure TwoPlayerPM where
  holder : Option (Fin 2)
  passed : List (Fin 2)
  deriving DecidableEq, Repr

/-- Fresh manager: no priority holder, empty pass list. -/
def TwoPlayerPM.init : TwoPlayerPM := ⟨none, []⟩

/-- `self._players[0] if player == self._players[1] else self._players[1]`. -/
def otherPlayer (p : Fin 2) : Fin 2 := if p = 1 then 0 else 1

/-- `TwoPlayerPriorityManager.pass_priority`: a call by a non-holder is a
warning no-op; otherwise the passer is appended to the pass list (if not
already there), and if the other player has also passed priority is
yielded (`None`), else it moves to the other player without clearing the
list. -/
def TwoPlayerPM.pass_priority (s : TwoPlayerPM) (p : Fin 2) : TwoPlayerPM :=
  if s.holder ≠ some p then s
  else
    let passed := if p ∈ s.passed then s.passed else s.passed ++ [p]
    let other := otherPlayer p
    if other ∈ passed then { holder := none, passed := passed }
    else { holder := some other, passed := passed }

/-- `TwoPlayerPriorityManager.set_priority`: assign the holder and reset
the pass-in-succession list. -/
def TwoPlayerPM.set_priority (_s : TwoPlayerPM) (p : Option (Fin 2)) : TwoPlayerPM :=
  { holder := p, passed := [] }

/-- `TwoPlayerPriorityManager.check_stack_resolve`: resolve iff no player
holds priority and both players are in the pass list; a positive answer
also resets the pass list. -/
def TwoPlayerPM.check_stack_resolve (s : TwoPlayerPM) : TwoPlayerPM × Bool :=
  if s.holder.isNone ∧ s.passed.length = 2 then ({ s with passed := [] }, true)
  else (s, false)

/-- A call on the priority manager. -/
inductive PMEvent where
  | setp (p : Option (Fin 2))
  | passp (p : Fin 2)
  | check
  deriving DecidableEq, Repr

def TwoPlayerPM.step (s : TwoPlayerPM) : PMEvent → TwoPlayerPM
  | PMEvent.setp p => s.set_priority p
  | PMEvent.passp p => s.pass_priority p
  | PMEvent.check => (s.check_stack_resolve).1

/-- The manager state after a sequence of calls, starting fresh. -/
def TwoPlayerPM.run (tr : List PMEvent) : TwoPlayerPM :=
  tr.foldl TwoPlayerPM.step TwoPlayerPM.init

/-- Ghost record of the claim's wording: which of the two players "have
passed priority via pass_priority" — a pass counts when the caller
actually held priority at that moment. -/
def markPassed (g : Bool × Bool) (p : Fin 2) : Bool × Bool :=
  if p = 0 then (true, g.2) else (g.1, true)

/-- Claim-as-stated history: the pass record is cleared exactly by
`set_priority` (the only reset the claim names). -/
def ghostStep (sg : TwoPlayerPM × (Bool × Bool)) (e : PMEvent) :
    TwoPlayerPM × (Bool × Bool) :=
  match e with
  | PMEvent.setp p => (sg.1.set_priority p, (false, false))
  | PMEvent.passp p =>
      (sg.1.pass_priority p,
       if sg.1.holder = some p then markPassed sg.2 p else sg.2)
  | PMEvent.check => ((sg.1.check_stack_resolve).1, sg.2)

def ghostRun (tr : List PMEvent) : TwoPlayerPM × (Bool × Bool) :=
  tr.foldl ghostStep (TwoPlayerPM.init, (false, false))

/-- Amended history: additionally, a `check_stack_resolve` call that
returns true consumes (clears) the pass record. -/
def ghostStepC (sg : TwoPlayerPM × (Bool × Bool)) (e : PMEvent) :
    TwoPlayerPM × (Bool × Bool) :=
  match e with
  | PMEvent.setp p => (sg.1.set_priority p, (false, false))
  | PMEvent.passp p =>
      (sg.1.pass_priority p,
       if sg.1.holder = some p then markPassed sg.2 p else sg.2)
  | PMEvent.check =>
      ((sg.1.check_stack_resolve).1,
       if (sg.1.check_stack_resolve).2 then (false, false) else sg.2)

def ghostRunC (tr : List PMEvent) : TwoPlayerPM × (Bool × Bool) :=
  tr.foldl ghostStepC (TwoPlayerPM.init, (false, false))

/-! ### Zones and zone moves

`ConcreteZone` (`zones/concrete.py`) keeps an ordered list of object ids;
each `ConcreteGameObject`/`ConcretePermanent` records its `current_zone`.
The zone system below carries one list per zone kind plus the per-object
`current_zone` field. -/

inductive ZoneName where
  | library
  | hand
  | battlefield
  | graveyard
  | stack
  | exile
  deriving DecidableEq, Repr

def allZoneNames : List ZoneName :=
  [ZoneName.library, ZoneName.hand, ZoneName.battlefield, ZoneName.graveyard,
   ZoneName.stack, ZoneName.exile]

structure ZoneSystem where
  zones : ZoneName → List Nat
  curZone : Nat → Option ZoneName

/-- `ConcreteZone.add` with the default position: append to the end of the
zone's list.  (`Library.add` overrides the default to insert at the top
instead; the insertion position is irrelevant to the membership/count
facts the invariant speaks about, and none of the claimed moves targets a
library.) -/
def ZoneSystem.zoneAdd (zs : ZoneSystem) (z : ZoneName) (i : Nat) : ZoneSystem :=
  { zs with zones := fun z' => if z' = z then zs.zones z' ++ [i] else zs.zones z' }

/-- `ConcreteZone.remove`: remove the first occurrence of the id; if the
id is absent, only a warning is printed (the list is unchanged). -/
def ZoneSystem.zoneRemove (zs : ZoneSystem) (z : ZoneName) (i : Nat) : ZoneSystem :=
  { zs with zones := fun z' => if z' = z then (zs.zones z').erase i else zs.zones z' }

/-- `ConcreteGameObject.move_to_zone` / `ConcretePermanent.move_to_zone`:
set the object's `current_zone` to the target and add its id to the
target zone's list.  The source zone's list is *not* touched (both
implementations only carry TODO comments about the source side). -/
def ZoneSystem.move_to_zone (zs : ZoneSystem) (i : Nat) (target : ZoneName) : ZoneSystem :=
  let zs := { zs with curZone := fun j => if j = i then some target else zs.curZone j }
  zs.zoneAdd target i

/-- One iteration of `ConcretePlayer.draw_cards`: `Library.draw` pops the
top (index 0) of the library, then — only under the Python truthiness
guard `if card_id:` — the drawn object is `move_to_zone`-d into the hand;
an empty library draws nothing.  Object ids are ints starting at 0
(`ConcreteGame.next_object_id = 0`), and `0` is falsy, so the id-0 card
is popped without being moved.  (The inner `if card_obj:` registry guard
is not modelled: every listed id stands for a registered object.) -/
def ZoneSystem.draw_card (zs : ZoneSystem) : ZoneSystem :=
  match zs.zones ZoneName.library with
  | [] => zs
  | i :: rest =>
      let zs' : ZoneSystem :=
        { zs with zones := fun z => if z = ZoneName.library then rest else zs.zones z }
      if i = 0 then zs' else zs'.move_to_zone i ZoneName.hand

/-- `ConcretePlayer.play_land` (zone effect): `can_play_land` requires the
card to be in the hand (`from_zone.contains`); then the id is removed from
the hand and the object `move_to_zone`-d onto the battlefield.  The other
legality conditions (turn, phase, priority, land drop) do not touch zone
state. -/
def ZoneSystem.play_land (zs : ZoneSystem) (i : Nat) : ZoneSystem :=
  if i ∈ zs.zones ZoneName.hand then
    (zs.zoneRemove ZoneName.hand i).move_to_zone i ZoneName.battlefield
  else zs

/-- Number of zone lists in which the id occurs (with multiplicity). -/
def ZoneSystem.zoneCount (zs : ZoneSystem) (i : Nat) : Nat :=
  (allZoneNames.map (fun z => (zs.zones z).count i)).sum

/-- The dual-bookkeeping agreement for one object id: the id occurs at
most once across all zone lists, and it is listed in a zone exactly when
that zone is its recorded `current_zone`. -/
def ZoneSystem.zoneAgree (zs : ZoneSystem) (i : Nat) : Prop :=
  zs.zoneCount i ≤ 1 ∧ ∀ z ∈ allZoneNames, (i ∈ zs.zones z ↔ zs.curZone i = some z)

instance (zs : ZoneSystem) (i : Nat) : Decidable (zs.zoneAgree i) := by
  unfold ZoneSystem.zoneAgree
  exact instDecidableAnd

/-- Concrete state for the counterexample: object `0` sits in the library
and its `current_zone` agrees. -/
def zs0 : ZoneSystem :=
  { zones := fun z => if z = ZoneName.library then [0] else []
    curZone := fun i => if i = 0 then some ZoneName.library else none }

/-- Agreeing state with truthy ids: object `1` in the library, object `2`
in the hand. -/
def zs1 : ZoneSystem :=
  { zones := fun z =>
      if z = ZoneName.library then [1]
      else if z = ZoneName.hand then [2]
      else []
    curZone := fun i =>
      if i = 1 then some ZoneName.library
      else if i = 2 then some ZoneName.hand
      else none }

/-! ### The resolution stack

Modelled from the spec: `ConcreteStack` is imported by `game.py` from
`zones/concrete.py`, but no definition of it exists anywhere in the
source (`zones/concrete.py` ends with "Add Stack, Exile, Command later if
needed").  Spec §4.3 fixes the contract: `push(id)` adds to the
conceptual top, `pop()` removes and returns the top-most (most recently
added) id or None when empty, `peek()` the same without removing.  The
conceptual top is the append end of the underlying ordered list, matching
`ConcreteZone.add`'s default append that callers (`CastSpellCommand`)
use. -/

structure ConcreteStack where
  objects : List Nat
  deriving DecidableEq, Repr

def ConcreteStack.push (s : ConcreteStack) (i : Nat) : ConcreteStack :=
  ⟨s.objects ++ [i]⟩

def ConcreteStack.pop (s : ConcreteStack) : Option Nat × ConcreteStack :=
  match s.objects.getLast? with
  | none => (none, s)
  | some i => (some i, ⟨s.objects.dropLast⟩)

def ConcreteStack.peek (s : ConcreteStack) : Option Nat :=
  s.objects.getLast?

/-! ### The object registry

`ConcreteGame.objects : Dict[ObjectId, GameObject]` together with
`register_object` (`game.py`). -/

/-- A registered game object: its id plus (opaquely) the rest of its
data, enough to tell two distinct objects with the same id apart. -/
structure RegObject where
  id : Nat
  payload : Nat
  deriving DecidableEq, Repr

abbrev Registry := Nat → Option RegObject

/-- `ConcreteGame.register_object`: if the id is already present only a
warning is printed ("already exists. Overwriting."); in every case
`self.objects[obj.id] = obj` stores the new object.  The boolean reports
whether the duplicate warning fired. -/
def register_object (objs : Registry) (o : RegObject) : Registry × Bool :=
  (fun i => if i = o.id then some o else objs i, (objs o.id).isSome)

/-- Registry holding one object with id 0 (payload 5), for the
counterexample. -/
def registry0 : Registry :=
  fun i => if i = 0 then some ⟨0, 5⟩ else none

/-! ### Win/loss checking and the SBA stub

`StubSbaChecker.check_and_perform` (`stubs.py`) and
`ConcreteGame.check_win_loss_condition` / `end_game` (`game.py`). -/

inductive GameResult where
  | win
  | loss
  | draw
  | inProgress
  deriving DecidableEq, Repr

structure GPlayer where
  id : Nat
  life : Int
  deriving DecidableEq, Repr

structure GameEndState where
  players : List GPlayer
  gameOver : Bool
  gameResult : Option (GameResult × Option GPlayer)
  deriving DecidableEq, Repr

/-- `ConcreteGame.end_game`: record the result and stop, unless the game
is already over. -/
def end_game (g : GameEndState) (result : GameResult) (winner : Option GPlayer) :
    GameEndState :=
  if g.gameOver then g
  else { g with gameOver := true, gameResult := some (result, winner) }

/-- `StubSbaChecker.check_and_perform`: "SBA checker that does nothing."
It always returns False and performs no action. -/
def check_and_perform (g : GameEndState) : GameEndState × Bool := (g, false)

/-- `ConcreteGame.check_win_loss_condition`: if the game is over return
True; otherwise scan the players in order for the first with life ≤ 0; on
a hit, in a two-player game the winner is the other player and the result
WIN, in solitaire the result is LOSS with no winner; `end_game` is called
and True returned.  No hit returns False. -/
def check_win_loss_condition (g : GameEndState) : GameEndState × Bool :=
  if g.gameOver then (g, true)
  else
    match g.players.find? (fun p => p.life ≤ 0) with
    | none => (g, false)
    | some p =>
        let winner :=
          if g.players.length = 2 then g.players.find? (fun q => q ≠ p) else none
        let result :=
          if g.players.length = 1 then GameResult.loss else GameResult.win
        (end_game g result winner, true)

/-- Two-player state in which player 0 has 0 life, for C7. -/
def gLife0 : GameEndState :=
  { players := [⟨0, 0⟩, ⟨1, 20⟩], gameOver := false, gameResult := none }

/-! ### Auxiliary definitions for the claims -/

/-- The sequencer state at the Cleanup step of turn 1: ten `advance`s from
the post-setup Upkeep state (Draw, Main, the five combat steps, Main, End,
Cleanup). -/
def cleanupTurn1 : SimpleTurnManager :=
  SimpleTurnManager.advance^[10] setupTurnState

/-- Call trace for the C4 counterexample: assign priority to player 0,
both players pass, one consuming resolve check. -/
def trC4 : List PMEvent :=
  [PMEvent.setp (some 0), PMEvent.passp 0, PMEvent.passp 1, PMEvent.check]

/-- Invariant tying a reachable priority-manager state to the record of
who has passed since the last reset: the pass list is empty, or exactly
one player has passed and the other holds priority, or both have passed
and nobody holds priority. -/
def PMInv (s : TwoPlayerPM) (g : Bool × Bool) : Prop :=
  (s.passed = [] ∧ g = (false, false))
  ∨ (∃ p : Fin 2, s.passed = [p] ∧ g = markPassed (false, false) p
       ∧ s.holder = some (otherPlayer p))
  ∨ (∃ p : Fin 2, s.passed = [p, otherPlayer p] ∧ g = (true, true) ∧ s.holder = none)

/-! ## Helper lemmas -/

theorem ManaPool.get_set_self (p : ManaPool) (t : ManaType) (v : Int) :
    (p.set t v).get t = v := by
  cases t <;> rfl

theorem ManaPool.get_set_ne (p : ManaPool) (t t' : ManaType) (v : Int)
    (h : t' ≠ t) : (p.set t v).get t' = p.get t' := by
  cases t <;> cases t' <;> first | rfl | exact absurd rfl h

/-! ## Claim theorems -/

/-- C3: settles the claim about `can_spend`'s colored-then-generic
payability check.  The code diverges from the claim (and from the
repository's own tests): a `SimpleManaCost` with a positive generic
component — the very cost `{Generic:1, Green:1}` of the claim's scenario,
Grizzly Bears' printed cost — cannot even be constructed, because the
constructor reads the nonexistent enum member `ManaType.GENERIC` and
raises `AttributeError`; `can_spend` is never reached. -/
theorem c3_generic_cost_attribute_error
    (generic white blue black red green colorless : Int) (h : 0 < generic) :
    SimpleManaCost.init generic white blue black red green colorless
      = Except.error "AttributeError: ManaType has no attribute GENERIC" := by
  simp [SimpleManaCost.init, h]

/-- Witness for C3 at the claim's own scenario cost `{Generic:1, Green:1}`. -/
theorem c3_generic_cost_attribute_error_witness :
    (0 : Int) < 1 ∧
    SimpleManaCost.init 1 0 0 0 0 1 0
      = Except.error "AttributeError: ManaType has no attribute GENERIC" :=
  ⟨by decide, c3_generic_cost_attribute_error 1 0 0 0 0 1 0 (by decide)⟩

/-- C5: the resolution stack is LIFO — pushing `a` then `b` pops `b`
first and then `a`, `peek` shows the most recent push, and `pop`/`peek`
on the empty stack return none. -/
theorem c5_stack_lifo (s : ConcreteStack) (a b : Nat) :
    ((s.push a).push b).pop = (some b, s.push a) ∧
    (s.push a).pop = (some a, s) ∧
    (s.push a).peek = some a ∧
    (ConcreteStack.mk []).pop = (none, ConcreteStack.mk []) ∧
    (ConcreteStack.mk []).peek = none := by
  have hpop : ∀ (u : ConcreteStack) (x : Nat), (u.push x).pop = (some x, u) := by
    intro u x
    simp [ConcreteStack.push, ConcreteStack.pop, List.getLast?_concat,
      List.dropLast_concat]
  refine ⟨hpop _ b, hpop _ a, ?_, rfl, rfl⟩
  simp [ConcreteStack.push, ConcreteStack.peek, List.getLast?_concat]

/-- C6 counterexample: registering a second object under an id that is
already present does not fail and does not keep the previous entry — the
new object overwrites the old one. -/
theorem c6_register_overwrites_counterexample :
    registry0 0 = some ⟨0, 5⟩ ∧
    (register_object registry0 ⟨0, 7⟩).1 0 = some ⟨0, 7⟩ ∧
    (register_object registry0 ⟨0, 7⟩).1 0 ≠ some ⟨0, 5⟩ := by
  decide

/-- C6 amended: `register_object` never rejects a duplicate id; it prints
a warning (reported by the boolean) and unconditionally stores the new
object under its id, leaving every other id's entry unchanged. -/
theorem c6_register_overwrites (objs : Registry) (o : RegObject) :
    (register_object objs o).1 o.id = some o ∧
    (∀ i, i ≠ o.id → (register_object objs o).1 i = objs i) ∧
    (register_object objs o).2 = (objs o.id).isSome := by
  exact ⟨by simp [register_object], fun i hi => by simp [register_object, hi], rfl⟩

/-- Witness for C6 amended: the non-duplicate id 1 is untouched by the
overwriting registration. -/
theorem c6_register_overwrites_witness :
    (register_object registry0 ⟨0, 7⟩).1 1 = registry0 1 :=
  (c6_register_overwrites registry0 ⟨0, 7⟩).2.1 1 (by decide)

/-- C9: `can_spend` never mutates the pool — the pool after the call is
the one before it, and an immediate second call returns the same result
on the same balances. -/
theorem c9_can_spend_pure (p : ManaPool) (cost : CostDict) :
    (p.can_spendM cost).2 = p ∧
    ((p.can_spendM cost).2).can_spendM cost = p.can_spendM cost :=
  ⟨rfl, rfl⟩

/-- C10: `add` with a non-positive amount leaves every balance unchanged;
with a positive amount it increases exactly the given mana type's balance
by that amount and leaves every other balance unchanged. -/
theorem c10_add_frame (p : ManaPool) (t : ManaType) (amount : Int) :
    (amount ≤ 0 → p.add t amount = p) ∧
    (0 < amount →
      (p.add t amount).get t = p.get t + amount ∧
      ∀ t', t' ≠ t → (p.add t amount).get t' = p.get t') := by
  constructor
  · intro h
    simp [ManaPool.add, h]
  · intro h
    have hn : ¬ amount ≤ 0 := by omega
    refine ⟨?_, fun t' ht' => ?_⟩
    · simp [ManaPool.add, hn, ManaPool.get_set_self]
    · simp [ManaPool.add, hn, ManaPool.get_set_ne p t t' _ ht']

/-- Witness for C10 at amount 2 (positive) and amount -1 (non-positive). -/
theorem c10_add_frame_witness :
    (ManaPool.empty.add ManaType.green 2).get ManaType.green
      = ManaPool.empty.get ManaType.green + 2 ∧
    (ManaPool.empty.add ManaType.green 2).get ManaType.white
      = ManaPool.empty.get ManaType.white ∧
    ManaPool.empty.add ManaType.white (-1) = ManaPool.empty := by
  refine ⟨((c10_add_frame ManaPool.empty ManaType.green 2).2 (by decide)).1,
    ((c10_add_frame ManaPool.empty ManaType.green 2).2 (by decide)).2
      ManaType.white (by decide),
    (c10_add_frame ManaPool.empty ManaType.white (-1)).1 (by decide)⟩

/-- C7 counterexample: in a state where a player's life is 0, one run of
the state-based-action checker `check_and_perform` performs nothing and
returns false — the game-ended signal does not fire from it. -/
theorem c7_stub_sba_counterexample :
    gLife0.players.head? = some ⟨0, 0⟩ ∧
    check_and_perform gLife0 = (gLife0, false) ∧
    (check_and_perform gLife0).1.gameOver = false := by
  decide

/-- C7 amended: the SBA checker is a stub that performs nothing and
returns false; the life ≤ 0 loss is applied instead by
`check_win_loss_condition` (run by the main loop every iteration), which
ends the game and returns true: the game-over flag is set and the
recorded result for the found loser is WIN with the first other player as
winner in a two-player game, and LOSS with no winner in solitaire. -/
theorem c7_win_loss_applies_loss (g : GameEndState) (p : GPlayer)
    (hover : g.gameOver = false) (hmem : p ∈ g.players) (hlife : p.life ≤ 0) :
    (∀ g' : GameEndState, check_and_perform g' = (g', false)) ∧
    (check_win_loss_condition g).2 = true ∧
    (check_win_loss_condition g).1.gameOver = true ∧
    ∃ loser, loser ∈ g.players ∧ loser.life ≤ 0 ∧
      (check_win_loss_condition g).1.gameResult
        = some (if g.players.length = 1 then GameResult.loss else GameResult.win,
                if g.players.length = 2 then g.players.find? (fun q => q ≠ loser)
                else none) := by
  have hfind : g.players.find? (fun q => q.life ≤ 0) ≠ none := by
    intro hnone
    rw [List.find?_eq_none] at hnone
    exact hnone p hmem (decide_eq_true hlife)
  obtain ⟨q, hq⟩ := Option.ne_none_iff_exists'.mp hfind
  have hqmem : q ∈ g.players := List.mem_of_find?_eq_some hq
  have hqlife : q.life ≤ 0 := by
    have hp := List.find?_some hq
    simpa using hp
  refine ⟨fun _ => rfl, ?_, ?_, q, hqmem, hqlife, ?_⟩ <;>
    simp [check_win_loss_condition, hover, hq, end_game]

/-- Witness for C7 amended at the concrete two-player life-0 state: the
game ends with result WIN and the opponent (player 1) recorded as the
winner. -/
theorem c7_win_loss_applies_loss_witness :
    (check_win_loss_condition gLife0).2 = true ∧
    (check_win_loss_condition gLife0).1.gameOver = true ∧
    (check_win_loss_condition gLife0).1.gameResult
      = some (GameResult.win, some ⟨1, 20⟩) :=
  ⟨(c7_win_loss_applies_loss gLife0 ⟨0, 0⟩ (by decide) (by decide) (by decide)).2.1,
   (c7_win_loss_applies_loss gLife0 ⟨0, 0⟩ (by decide) (by decide) (by decide)).2.2.1,
   by decide⟩

theorem CostDict.getAmount_generic_of_not_hasGeneric :
    ∀ cost : CostDict, cost.hasGeneric = false →
      cost.getAmount CostKey.genericStr = 0
  | [], _ => rfl
  | (k, a) :: rest, h => by
      unfold CostDict.hasGeneric at h
      simp only [List.any_cons, Bool.or_eq_false_iff, decide_eq_false_iff_not] at h
      unfold CostDict.getAmount
      rw [if_neg h.1]
      exact CostDict.getAmount_generic_of_not_hasGeneric rest h.2

theorem ManaPool.paySpecifics_get :
    ∀ (cost : CostDict) (temp : ManaPool) (t : ManaType),
      (ManaPool.paySpecifics temp cost).get t = temp.get t - cost.sumSpecific t
  | [], temp, t => by
      simp [ManaPool.paySpecifics, CostDict.sumSpecific]
  | (CostKey.genericStr, a) :: rest, temp, t => by
      simp [ManaPool.paySpecifics, CostDict.sumSpecific,
        ManaPool.paySpecifics_get rest temp t]
  | (CostKey.mana t', a) :: rest, temp, t => by
      by_cases h : t' = t
      · subst h
        rw [show ManaPool.paySpecifics temp ((CostKey.mana t', a) :: rest)
            = ManaPool.paySpecifics (temp.set t' (temp.get t' - a)) rest from rfl]
        rw [ManaPool.paySpecifics_get rest _ t', ManaPool.get_set_self]
        simp [CostDict.sumSpecific]
        omega
      · rw [show ManaPool.paySpecifics temp ((CostKey.mana t', a) :: rest)
            = ManaPool.paySpecifics (temp.set t' (temp.get t' - a)) rest from rfl]
        rw [ManaPool.paySpecifics_get rest _ t,
          ManaPool.get_set_ne temp t' t _ (fun hc => h hc.symm)]
        simp [CostDict.sumSpecific, h]

theorem ManaPool.payGeneric_zero (temp : ManaPool) :
    ∀ l : List ManaType, ManaPool.payGeneric temp 0 l = (temp, 0)
  | [] => rfl
  | t :: rest => by
      have h1 : ¬ (0 : Int) < min 0 (temp.get t) := by
        have := min_le_left (0 : Int) (temp.get t)
        omega
      simp [ManaPool.payGeneric, h1]

/-- C8: mana payment is atomic — whenever `spend` reports failure the
pool is returned unchanged (both failure paths return before committing
the working copy), and on success exactly the cost's per-type amounts are
deducted.  The deduction clause is stated for cost dictionaries without a
`"generic"` entry, which covers every dictionary `SimpleManaCost` can
actually construct (a positive generic component raises in the
constructor, and non-positive components are not stored). -/
theorem c8_spend_atomic (p : ManaPool) (cost : CostDict) :
    ((p.spend cost).2 = false → (p.spend cost).1 = p) ∧
    (cost.hasGeneric = false → (p.spend cost).2 = true →
      ∀ t, (p.spend cost).1.get t = p.get t - cost.sumSpecific t) := by
  by_cases hcan : ManaPool.can_spend p cost = true
  · by_cases hleft :
      0 < (ManaPool.payGeneric (ManaPool.paySpecifics p cost)
        (cost.getAmount CostKey.genericStr) manaTypesForGeneric).2
    · have hs : p.spend cost = (p, false) := by
        unfold ManaPool.spend
        simp [hcan, hleft]
      rw [hs]
      exact ⟨fun _ => rfl, fun _ h => absurd h (by simp)⟩
    · have hs : p.spend cost =
          ((ManaPool.payGeneric (ManaPool.paySpecifics p cost)
            (cost.getAmount CostKey.genericStr) manaTypesForGeneric).1, true) := by
        unfold ManaPool.spend
        simp [hcan, hleft]
      rw [hs]
      refine ⟨fun h => absurd h (by simp), fun hng _ t => ?_⟩
      rw [CostDict.getAmount_generic_of_not_hasGeneric cost hng,
        ManaPool.payGeneric_zero]
      exact ManaPool.paySpecifics_get cost p t
  · have hs : p.spend cost = (p, false) := by
      unfold ManaPool.spend
      simp [hcan]
    rw [hs]
    exact ⟨fun _ => rfl, fun _ h => absurd h (by simp)⟩

/-- Witness for C8: paying `{W}` out of a one-white-mana pool succeeds
and deducts exactly one white mana, and an unpayable spend from the empty
pool leaves it unchanged. -/
theorem c8_spend_atomic_witness :
    CostDict.hasGeneric [(CostKey.mana ManaType.white, 1)] = false ∧
    ((ManaPool.empty.set ManaType.white 1).spend
      [(CostKey.mana ManaType.white, 1)]).2 = true ∧
    ((ManaPool.empty.set ManaType.white 1).spend
        [(CostKey.mana ManaType.white, 1)]).1.get ManaType.white
      = (ManaPool.empty.set ManaType.white 1).get ManaType.white
        - CostDict.sumSpecific [(CostKey.mana ManaType.white, 1)] ManaType.white ∧
    (ManaPool.empty.spend [(CostKey.mana ManaType.white, 1)]).1 = ManaPool.empty := by
  refine ⟨by decide, by decide, ?_, ?_⟩
  · exact (c8_spend_atomic (ManaPool.empty.set ManaType.white 1)
      [(CostKey.mana ManaType.white, 1)]).2 (by decide) (by decide) ManaType.white
  · exact (c8_spend_atomic ManaPool.empty
      [(CostKey.mana ManaType.white, 1)]).1 (by decide)

/-- C1: evaluation of the sequencer at the end of turn 1.  The Cleanup
state is reached as expected, and wrapping does rotate the active player
and increment the turn counter exactly once — but the first step entered
in the new turn is Draw, not Untap: the wrap branch of `advance` indexes
`STEP_ORDER[BEGINNING]` with the `_step_index = -1` that `start_turn`
just reset, and Python's negative indexing selects the last Beginning
step.  Untap and Upkeep follow, and Draw is then visited a second time in
the same turn. -/
theorem c1_wrap_enters_draw_not_untap :
    cleanupTurn1.currentPhase = PhaseType.ending ∧
    cleanupTurn1.currentStep = StepType.cleanup ∧
    cleanupTurn1.turnNumber = 1 ∧
    cleanupTurn1.activePlayerIndex = 0 ∧
    (cleanupTurn1.advance).turnNumber = 2 ∧
    (cleanupTurn1.advance).activePlayerIndex = 1 ∧
    (cleanupTurn1.advance).currentPhase = PhaseType.beginning ∧
    (cleanupTurn1.advance).currentStep = StepType.draw ∧
    (SimpleTurnManager.advance^[2] cleanupTurn1).currentStep = StepType.untap ∧
    (SimpleTurnManager.advance^[3] cleanupTurn1).currentStep = StepType.upkeep ∧
    (SimpleTurnManager.advance^[4] cleanupTurn1).currentStep = StepType.draw ∧
    (SimpleTurnManager.advance^[4] cleanupTurn1).turnNumber = 2 := by
  decide

theorem otherPlayer_ne : ∀ p : Fin 2, otherPlayer p ≠ p := by decide

theorem otherPlayer_invol : ∀ p : Fin 2, otherPlayer (otherPlayer p) = p := by decide

theorem markPassed_both :
    ∀ p : Fin 2, markPassed (markPassed (false, false) p) (otherPlayer p)
      = (true, true) := by decide

theorem markPassed_one_ne :
    ∀ p : Fin 2, markPassed (false, false) p ≠ (true, true) := by decide

theorem ghostStepC_fst (s : TwoPlayerPM) (g : Bool × Bool) (e : PMEvent) :
    (ghostStepC (s, g) e).1 = s.step e := by
  cases e <;> rfl

theorem ghostRunC_fst :
    ∀ (tr : List PMEvent) (s : TwoPlayerPM) (g : Bool × Bool),
      (tr.foldl ghostStepC (s, g)).1 = tr.foldl TwoPlayerPM.step s
  | [], _, _ => rfl
  | e :: tr, s, g => by
      rw [List.foldl_cons, List.foldl_cons]
      have he : ghostStepC (s, g) e = (s.step e, (ghostStepC (s, g) e).2) := by
        cases e <;> rfl
      rw [he]
      exact ghostRunC_fst tr (s.step e) (ghostStepC (s, g) e).2

theorem PMInv_step (s : TwoPlayerPM) (g : Bool × Bool) (e : PMEvent)
    (h : PMInv s g) : PMInv (ghostStepC (s, g) e).1 (ghostStepC (s, g) e).2 := by
  cases e with
  | setp p =>
      exact Or.inl ⟨rfl, rfl⟩
  | check =>
      rcases h with ⟨h1, h2⟩ | ⟨p, h1, h2, h3⟩ | ⟨p, h1, h2, h3⟩
      · refine Or.inl ?_
        have hc : s.check_stack_resolve = (s, false) := by
          simp [TwoPlayerPM.check_stack_resolve, h1]
        simp [ghostStepC, hc, h1, h2]
      · refine Or.inr (Or.inl ⟨p, ?_, ?_, ?_⟩) <;>
          · have hc : s.check_stack_resolve = (s, false) := by
              simp [TwoPlayerPM.check_stack_resolve, h1]
            simp [ghostStepC, hc, h1, h2, h3]
      · refine Or.inl ?_
        have hc : s.check_stack_resolve = ({ s with passed := [] }, true) := by
          simp [TwoPlayerPM.check_stack_resolve, h1, h3]
        simp [ghostStepC, hc]
  | passp q =>
      rcases h with ⟨h1, h2⟩ | ⟨p, h1, h2, h3⟩ | ⟨p, h1, h2, h3⟩
      · by_cases hq : s.holder = some q
        · refine Or.inr (Or.inl ⟨q, ?_, ?_, ?_⟩) <;>
            simp [ghostStepC, TwoPlayerPM.pass_priority, hq, h1, h2,
              otherPlayer_ne q]
        · refine Or.inl ?_
          simp [ghostStepC, TwoPlayerPM.pass_priority, hq, h1, h2]
      · by_cases hq : q = otherPlayer p
        · subst hq
          refine Or.inr (Or.inr ⟨p, ?_, ?_, ?_⟩)
          · simp [ghostStepC, TwoPlayerPM.pass_priority, h1, h3,
              otherPlayer_ne p, otherPlayer_invol p]
          · simp [ghostStepC, h3, h2, markPassed_both p]
          · simp [ghostStepC, TwoPlayerPM.pass_priority, h1, h3,
              otherPlayer_ne p, otherPlayer_invol p]
        · have hne2 : otherPlayer p ≠ q := fun hc => hq hc.symm
          refine Or.inr (Or.inl ⟨p, ?_, ?_, ?_⟩) <;>
            simp [ghostStepC, TwoPlayerPM.pass_priority, hne2, h1, h2, h3]
      · have hne : s.holder ≠ some q := by
          rw [h3]
          exact fun hc => Option.noConfusion hc
        refine Or.inr (Or.inr ⟨p, ?_, ?_, ?_⟩) <;>
          simp [ghostStepC, TwoPlayerPM.pass_priority, hne, h1, h2, h3]

theorem PMInv_runC :
    ∀ (tr : List PMEvent) (s : TwoPlayerPM) (g : Bool × Bool),
      PMInv s g →
      PMInv (tr.foldl ghostStepC (s, g)).1 (tr.foldl ghostStepC (s, g)).2
  | [], _, _, h => h
  | e :: tr, s, g, h => by
      rw [List.foldl_cons]
      exact PMInv_runC tr _ _ (PMInv_step s g e h)

theorem PMInv_check_iff (s : TwoPlayerPM) (g : Bool × Bool) (h : PMInv s g) :
    ((s.check_stack_resolve).2 = true ↔ g = (true, true)) := by
  rcases h with ⟨h1, h2⟩ | ⟨p, h1, h2, h3⟩ | ⟨p, h1, h2, h3⟩
  · simp [TwoPlayerPM.check_stack_resolve, h1, h2]
  · constructor
    · intro hc
      simp [TwoPlayerPM.check_stack_resolve, h1] at hc
    · intro hg
      rw [h2] at hg
      exact absurd hg (markPassed_one_ne p)
  · simp [TwoPlayerPM.check_stack_resolve, h1, h2, h3]

/-- C4 counterexample: after the trace "set priority to player 0, both
players pass, one resolve check", both players have passed since the last
`set_priority` with no intervening `set_priority`, yet a further
`check_stack_resolve` returns false — the claimed biconditional fails,
because a check that returns true also consumes (clears) the pass
record. -/
theorem c4_check_consumes_counterexample :
    ¬ ((((TwoPlayerPM.run trC4).check_stack_resolve).2 = true)
        ↔ (ghostRun trC4).2 = (true, true)) := by
  decide

/-- C4 amended: `check_stack_resolve` returns true exactly when both
players have passed priority (while holding it) since the last
`set_priority` call *and* no intervening `check_stack_resolve` has
already returned true (a successful check consumes the passes); moreover
every `set_priority` call clears the pass-in-succession tracking, and the
ghost-instrumented run agrees with the plain run of the manager. -/
theorem c4_check_iff_both_passed (tr : List PMEvent) :
    ((((TwoPlayerPM.run tr).check_stack_resolve).2 = true)
        ↔ (ghostRunC tr).2 = (true, true)) ∧
    (∀ (s : TwoPlayerPM) (p : Option (Fin 2)), (s.set_priority p).passed = []) ∧
    (ghostRunC tr).1 = TwoPlayerPM.run tr := by
  have hinv := PMInv_runC tr TwoPlayerPM.init (false, false) (Or.inl ⟨rfl, rfl⟩)
  have hfst := ghostRunC_fst tr TwoPlayerPM.init (false, false)
  have hiff := PMInv_check_iff _ _ hinv
  rw [hfst] at hiff
  exact ⟨hiff, fun _ _ => rfl, hfst⟩

theorem ZoneSystem.move_zones (zs : ZoneSystem) (i : Nat) (target z : ZoneName) :
    (zs.move_to_zone i target).zones z
      = if z = target then zs.zones z ++ [i] else zs.zones z := rfl

theorem ZoneSystem.move_curZone (zs : ZoneSystem) (i : Nat) (target : ZoneName)
    (j : Nat) :
    (zs.move_to_zone i target).curZone j
      = if j = i then some target else zs.curZone j := rfl

theorem zoneAgree_of_eqCounts (zs zs₂ : ZoneSystem) (k : Nat)
    (hz : ∀ z ∈ allZoneNames, (zs₂.zones z).count k = (zs.zones z).count k)
    (hc : zs₂.curZone k = zs.curZone k)
    (h : zs.zoneAgree k) : zs₂.zoneAgree k := by
  obtain ⟨h1, h2⟩ := h
  refine ⟨?_, ?_⟩
  · unfold ZoneSystem.zoneCount at h1 ⊢
    rw [List.map_congr_left hz]
    exact h1
  · intro z hzin
    rw [hc, ← h2 z hzin, ← List.count_pos_iff, ← List.count_pos_iff, hz z hzin]

theorem zoneAgree_move_of_unlisted (zs : ZoneSystem) (i : Nat) (target : ZoneName)
    (hcount : ∀ z ∈ allZoneNames, (zs.zones z).count i = 0) :
    (zs.move_to_zone i target).zoneAgree i := by
  have hl := hcount ZoneName.library (by simp [allZoneNames])
  have hh := hcount ZoneName.hand (by simp [allZoneNames])
  have hb := hcount ZoneName.battlefield (by simp [allZoneNames])
  have hg := hcount ZoneName.graveyard (by simp [allZoneNames])
  have hs := hcount ZoneName.stack (by simp [allZoneNames])
  have he := hcount ZoneName.exile (by simp [allZoneNames])
  constructor
  · unfold ZoneSystem.zoneCount allZoneNames
    simp only [List.map_cons, List.map_nil, List.sum_cons, List.sum_nil,
      ZoneSystem.move_zones]
    cases target <;> simp [hl, hh, hb, hg, hs, he]
  · intro z hzin
    rw [ZoneSystem.move_curZone, if_pos rfl, ZoneSystem.move_zones]
    by_cases hz : z = target
    · subst hz
      simp
    · rw [if_neg hz]
      constructor
      · intro hm
        exact absurd hm (List.count_eq_zero.mp (hcount z hzin))
      · intro hsome
        exact absurd (Option.some.inj hsome).symm hz

theorem draw_card_preserves (zs : ZoneSystem) (h : ∀ k, zs.zoneAgree k)
    (hhd : (zs.zones ZoneName.library).head? ≠ some 0) (k : Nat) :
    (zs.draw_card).zoneAgree k := by
  cases hlib : zs.zones ZoneName.library with
  | nil =>
      have hd : zs.draw_card = zs := by
        unfold ZoneSystem.draw_card
        rw [hlib]
      rw [hd]
      exact h k
  | cons i rest =>
      have hne0 : i ≠ 0 := by
        rw [hlib] at hhd
        simp only [List.head?_cons] at hhd
        exact fun hc => hhd (by rw [hc])
      have hd : zs.draw_card
          = ({ zs with
                zones := fun z => if z = ZoneName.library then rest else zs.zones z
              } : ZoneSystem).move_to_zone i ZoneName.hand := by
        unfold ZoneSystem.draw_card
        rw [hlib]
        simp only [if_neg hne0]
      rw [hd]
      have hi1 := (h i).1
      unfold ZoneSystem.zoneCount allZoneNames at hi1
      simp only [List.map_cons, List.map_nil, List.sum_cons, List.sum_nil] at hi1
      rw [hlib, List.count_cons_self] at hi1
      by_cases hk : k = i
      · subst hk
        apply zoneAgree_move_of_unlisted
        intro z _
        cases z <;> simp <;> omega
      · apply zoneAgree_of_eqCounts zs _ k _ _ (h k)
        · intro z _
          rw [ZoneSystem.move_zones]
          cases z <;>
            simp [hlib, List.count_cons_of_ne hk, List.count_singleton,
              fun hc : i = k => hk hc.symm]
        · rw [ZoneSystem.move_curZone, if_neg hk]

theorem play_land_preserves (zs : ZoneSystem) (h : ∀ k, zs.zoneAgree k) (i k : Nat) :
    (zs.play_land i).zoneAgree k := by
  unfold ZoneSystem.play_land
  by_cases hmem : i ∈ zs.zones ZoneName.hand
  · rw [if_pos hmem]
    have hi1 := (h i).1
    unfold ZoneSystem.zoneCount allZoneNames at hi1
    simp only [List.map_cons, List.map_nil, List.sum_cons, List.sum_nil] at hi1
    have hpos : 0 < (zs.zones ZoneName.hand).count i := List.count_pos_iff.mpr hmem
    by_cases hk : k = i
    · subst hk
      apply zoneAgree_move_of_unlisted
      intro z _
      cases z <;> simp [ZoneSystem.zoneRemove, List.count_erase_self] <;> omega
    · have hik : i ≠ k := fun hc => hk hc.symm
      apply zoneAgree_of_eqCounts zs _ k _ _ (h k)
      · intro z _
        rw [ZoneSystem.move_zones]
        cases z <;>
          simp [ZoneSystem.zoneRemove, List.count_erase_of_ne hk,
            List.count_singleton, hik]
      · rw [ZoneSystem.move_curZone, if_neg hk]
        rfl
  · rw [if_neg hmem]
    exact h k

/-- C2 counterexample: in the agreeing state where object 0 sits (only)
in the library, `move_to_zone` into the hand leaves the id in the
library's list while also adding it to the hand's list — the id is now in
two zones, violating the invariant the claim says is preserved.  Drawing
from that state also breaks the invariant: `draw_cards`'s truthiness
guard `if card_id:` skips the move for the falsy id 0, which is popped
from the library while its `current_zone` still records the library. -/
theorem c2_move_to_zone_counterexample :
    zs0.zoneAgree 0 ∧ ¬ (zs0.move_to_zone 0 ZoneName.hand).zoneAgree 0 ∧
    ¬ (zs0.draw_card).zoneAgree 0 := by
  decide

/-- C2 amended: the compound zone moves that first remove the id from its
source — drawing a card (`Library.draw` pops, then `move_to_zone` into
the hand) and playing a land (`from_zone.remove`, then `move_to_zone`
onto the battlefield) — preserve the dual-bookkeeping agreement for every
object, drawing provided the drawn id is not the falsy id 0 (whose move
the `if card_id:` guard skips, leaving its `current_zone` stale);
`move_to_zone` by itself only adds to the target and preserves the
agreement only when no zone's list still holds the id. -/
theorem c2_zone_moves_preserve_agreement (zs : ZoneSystem) (h : ∀ k, zs.zoneAgree k) :
    ((zs.zones ZoneName.library).head? ≠ some 0 →
      ∀ k, (zs.draw_card).zoneAgree k) ∧
    (∀ i k, (zs.play_land i).zoneAgree k) ∧
    (∀ i target k, zs.zoneCount i = 0 →
      (zs.move_to_zone i target).zoneAgree k) := by
  refine ⟨fun hhd => draw_card_preserves zs h hhd, play_land_preserves zs h, ?_⟩
  intro i target k hzero
  have hall : ∀ z ∈ allZoneNames, (zs.zones z).count i = 0 := by
    intro z hz
    unfold ZoneSystem.zoneCount at hzero
    have := (List.sum_eq_zero_iff.mp hzero) ((zs.zones z).count i)
      (List.mem_map_of_mem _ hz)
    exact this
  by_cases hk : k = i
  · subst hk
    exact zoneAgree_move_of_unlisted zs k target hall
  · have hik : i ≠ k := fun hc => hk hc.symm
    apply zoneAgree_of_eqCounts zs _ k _ _ (h k)
    · intro z hz
      rw [ZoneSystem.move_zones]
      by_cases hzt : z = target
      · subst hzt
        simp [List.count_singleton, hik]
      · rw [if_neg hzt]
    · rw [ZoneSystem.move_curZone, if_neg hk]

/-- Witness for C2 amended at the concrete truthy-id state: drawing the
id-1 card, playing the id-2 land and moving the fresh id 3 all preserve
the agreement. -/
theorem c2_zone_moves_preserve_agreement_witness :
    (zs1.draw_card).zoneAgree 1 ∧ (zs1.play_land 2).zoneAgree 2 ∧
    (zs1.move_to_zone 3 ZoneName.graveyard).zoneAgree 3 := by
  have h : ∀ k, zs1.zoneAgree k := by
    intro k
    by_cases hk1 : k = 1
    · subst hk1
      decide
    · by_cases hk2 : k = 2
      · subst hk2
        decide
      · have h1k : 1 ≠ k := fun hc => hk1 hc.symm
        have h2k : 2 ≠ k := fun hc => hk2 hc.symm
        constructor
        · unfold ZoneSystem.zoneCount allZoneNames zs1
          simp [List.count_singleton, h1k, h2k]
        · intro z hz
          simp only [zs1, hk1, hk2, if_false]
          constructor
          · intro hm
            split at hm <;> simp_all
          · intro hc
            simp at hc
  refine ⟨?_, ?_, ?_⟩
  · exact (c2_zone_moves_preserve_agreement zs1 h).1 (by decide) 1
  · exact (c2_zone_moves_preserve_agreement zs1 h).2.1 2 2
  · exact (c2_zone_moves_preserve_agreement zs1 h).2.2 3 ZoneName.graveyard 3 (by decide)

end MagicEngine


